import Mathlib

/-!
# Round-robin load balancer (`lb.go`)

A shallow embedding of the request-dispatch and backend-health code of `lb.go`:

* `getNextServer`, the round-robin selector over the `servers` registry, driven by the
  `int32` counter `currentServer`;
* `healthCheck`, which sets a backend's `Healthy` flag from one probe;
* `forwardRequest`, which proxies one inbound request to a backend and relays the answer.

Machine integers are modelled as `Int` with explicit wrap-around (`wrapInt32`); Go's `%` is the
truncated remainder `Int.tmod`; a run-time panic is an explicit outcome.
-/

namespace LB

/-! ## Data model -/

/-- A parsed `*url.URL`, kept as the text `URL.String()` renders. -/
structure URL where
  raw : String
  deriving DecidableEq, Repr

/-- `backendURL.String()`. -/
def URL.String (u : URL) : String := u.raw

/-- `type Server struct { URL *url.URL; Healthy bool }`. -/
structure Server where
  URL : URL
  Healthy : Bool
  deriving DecidableEq, Repr

/-- `parseURL`, on an address that `url.Parse` accepts. -/
def parseURL (serverURL : String) : URL := ⟨serverURL⟩

/-- The package-level registry `servers` as initialised at process start. -/
def servers : List Server :=
  [ { URL := parseURL "http://localhost:8081", Healthy := true },
    { URL := parseURL "http://localhost:8082", Healthy := true } ]

/-- The initial value of the package-level counter `currentServer int32`. -/
def currentServer : Int := 0

/-! ## Machine arithmetic -/

/-- Two's-complement wrap of an integer into the `int32` range `[-2^31, 2^31)`. -/
def wrapInt32 (x : Int) : Int := (x + 2147483648) % 4294967296 - 2147483648

/-- `atomic.AddInt32(&addr, delta)`: the new (wrapped) value, which is also the value stored. -/
def atomicAddInt32 (addr : Int) (delta : Int) : Int := wrapInt32 (addr + delta)

/-! ## The selector -/

/-- What one execution of the body of the `for` loop of `getNextServer` does. -/
inductive LoopStep where
  /-- `return server`: the registry index, the server as inspected, the counter left behind. -/
  | found (index : Nat) (server : Server) (counter : Int)
  /-- A run-time panic (index out of range, or division by zero on an empty registry). -/
  | panicked (counter : Int)
  /-- The candidate was unhealthy: go round the loop again. -/
  | retry (counter : Int)
  deriving DecidableEq, Repr

/-- The second and third statements of the loop body, for the value `serverIndex` that the
increment produced: `server := servers[int(serverIndex) % len(servers)]` (Go's `%` truncates
towards zero; the lookup panics outside `0 ≤ index < len(servers)`, the remainder panics on a
zero length), then `if server.Healthy { return server }`. -/
def inspect (servers : List Server) (serverIndex : Int) : LoopStep :=
  if servers.length = 0 then .panicked serverIndex
  else
    let i := Int.tmod serverIndex (servers.length : Int)
    if i < 0 then .panicked serverIndex
    else
      match servers[i.toNat]? with
      | none => .panicked serverIndex
      | some server =>
        if server.Healthy then .found i.toNat server serverIndex else .retry serverIndex

/-- One execution of the loop body of `getNextServer`:
`serverIndex := atomic.AddInt32(&currentServer, 1)` followed by the lookup and the check. -/
def loopBody (servers : List Server) (currentServer : Int) : LoopStep :=
  inspect servers (atomicAddInt32 currentServer 1)

/-- The outcome of a call of `getNextServer` observed for a bounded number of iterations. -/
inductive CallResult where
  /-- The call returned the server at `index`, leaving `counter` in `currentServer`. -/
  | returned (index : Nat) (server : Server) (counter : Int)
  /-- The call panicked, leaving `counter` in `currentServer`. -/
  | panicked (counter : Int)
  /-- The loop is still running after the observed iterations. -/
  | running (counter : Int)
  deriving DecidableEq, Repr

/-- The loop of `getNextServer` when the registry's flags may change while it runs:
`obs t` is the registry as the `t`-th iteration reads it; `fuel` bounds the iterations
observed. -/
def getNextServerObs (obs : Nat → List Server) : Nat → Int → CallResult
  | 0, c => .running c
  | fuel + 1, c =>
    match loopBody (obs 0) c with
    | .found i s c' => .returned i s c'
    | .panicked c' => .panicked c'
    | .retry c' => getNextServerObs (fun t => obs (t + 1)) fuel c'

/-- The loop of `getNextServer` over a registry whose flags stay fixed during the call. -/
def getNextServer (servers : List Server) (fuel : Nat) (currentServer : Int) : CallResult :=
  getNextServerObs (fun _ => servers) fuel currentServer

/-- The counter a call leaves behind. -/
def CallResult.counter : CallResult → Int
  | .returned _ _ c => c
  | .panicked c => c
  | .running c => c

/-- The registry index a call selected, if it returned. -/
def CallResult.index? : CallResult → Option Nat
  | .returned i _ _ => some i
  | _ => none

/-- `M` calls of `getNextServer` one after the other (no concurrency) on a fixed registry,
each observed for `fuel` iterations; a panicking call is recovered by the HTTP server and
the next call goes on from the counter it left. -/
def sequentialCalls (servers : List Server) (fuel : Nat) : Nat → Int → List CallResult
  | 0, _ => []
  | M + 1, c =>
    let r := getNextServer servers fuel c
    r :: sequentialCalls servers fuel M r.counter

/-- How many calls of a run selected the backend at registry index `j`. -/
def selectionCount (run : List CallResult) (j : Nat) : Nat :=
  (run.filter (fun r => r.index? == some j)).length

/-- The initial registry with both health flags cleared by the health monitor. -/
def serversDown : List Server :=
  [ { URL := parseURL "http://localhost:8081", Healthy := false },
    { URL := parseURL "http://localhost:8082", Healthy := false } ]

/-- A two-backend registry whose first backend is flagged unhealthy. -/
def serversFirstDown : List Server :=
  [ { URL := parseURL "http://localhost:8081", Healthy := false },
    { URL := parseURL "http://localhost:8082", Healthy := true } ]

/-- The values `M` successive atomic increments of the counter `c` hand out. -/
def postIncrements (c : Int) : Nat → List Int
  | 0 => []
  | M + 1 => atomicAddInt32 c 1 :: postIncrements (atomicAddInt32 c 1) M

/-- The selections of calls that each take one loop iteration, listed by the value the
atomic increment handed to each call (in any interleaving of the calls). -/
def concurrentSelections (servers : List Server) (postIncrements : List Int) : List CallResult :=
  postIncrements.map (fun v =>
    match inspect servers v with
    | .found i s c => .returned i s c
    | .panicked c => .panicked c
    | .retry c => .running c)

/-- The health flag read at registry index `i` (`false` outside the registry). -/
def healthyAt (servers : List Server) (i : Nat) : Bool :=
  match servers[i]? with
  | some s => s.Healthy
  | none => false

/-- Every backend of the registry has its flag set. -/
def allHealthy (servers : List Server) : Prop := ∀ s ∈ servers, s.Healthy = true

/-- Every backend of the registry has its flag cleared. -/
def allUnhealthy (servers : List Server) : Prop := ∀ s ∈ servers, s.Healthy = false

instance (servers : List Server) : Decidable (allHealthy servers) := by
  unfold allHealthy; infer_instance

instance (servers : List Server) : Decidable (allUnhealthy servers) := by
  unfold allUnhealthy; infer_instance

/-! ## HTTP vocabulary used by the health monitor and the forwarder

The parts of `net/http` the code calls are modelled by their documented contract: a header
is a map from a key to a list of values, a body is a stream that yields bytes and then ends
or fails, and a response writer sends the status line and the headers once, on the first
`WriteHeader` or `Write`. -/

/-- `http.Header`, that is `map[string][]string`: every key occurs once. -/
abbrev Header := AList (fun _ : String => List String)

/-- A body stream (`io.ReadCloser`): the bytes it yields, and whether reading them ends
with an error instead of the end of the stream. -/
structure Stream where
  data : String
  fails : Bool
  deriving DecidableEq

/-- The fields of `*http.Request` the code reads or `http.NewRequest` sets: `RequestURI` is
the path and query of an inbound request as received, `URL` the parsed target. -/
structure Request where
  Method : String
  URL : URL
  RequestURI : String
  Header : Header
  Body : Stream
  deriving DecidableEq

/-- The fields of `*http.Response` the code reads. -/
structure Response where
  StatusCode : Int
  Header : Header
  Body : Stream
  deriving DecidableEq

/-- `http.StatusOK`. -/
def StatusOK : Int := 200

/-- `http.StatusInternalServerError`. -/
def StatusInternalServerError : Int := 500

/-- `http.StatusBadGateway`. -/
def StatusBadGateway : Int := 502

/-- The library and the network as one call sees them: which methods `http.NewRequest`
accepts (its token check), the `*url.URL` it stores for a target string (`url.Parse`, then
removal of an empty port) or the parse error, what `http.Get` yields for a URL and what
`client.Do` yields for a request, each either a transport error or a response, and whether
writing a response's body on to the client fails (with the bytes accepted before the
failure) or succeeds (`none`). -/
structure Net where
  validMethod : String → Bool
  requestURL : String → Except String URL
  get : String → Except String Response
  roundTrip : Request → Except String Response
  writeError : Response → Option String

/-! ## The health monitor -/

/-- `healthCheck`: `resp, err := http.Get(server.URL.String() + "/health")`, then
`Healthy = false` if `err != nil || resp.StatusCode != http.StatusOK`, else `Healthy = true`.
The flag is the only field written. -/
def healthCheck (net : Net) (server : Server) : Server :=
  match net.get (server.URL.String ++ "/health") with
  | .error _ => { server with Healthy := false }
  | .ok resp =>
    if resp.StatusCode ≠ StatusOK then { server with Healthy := false }
    else { server with Healthy := true }

/-! ## The forwarder -/

/-- An `http.ResponseWriter`: the header map `w.Header()`, the informational `1xx` codes
sent so far, the final status code and header snapshot sent to the client by the first
accepted `WriteHeader` (none while no final status was sent), and the body bytes written so
far. -/
structure ResponseWriter where
  header : Header
  interim : List Int
  committed : Option (Int × Header)
  body : String
  deriving DecidableEq

/-- The response writer the server hands to a handler: nothing set, nothing sent. -/
def freshWriter : ResponseWriter :=
  { header := ∅, interim := [], committed := none, body := "" }

/-- The status code the client received, if one was sent. -/
def ResponseWriter.status (w : ResponseWriter) : Option Int := w.committed.map Prod.fst

/-- The headers the client received, if they were sent. -/
def ResponseWriter.sentHeader (w : ResponseWriter) : Option Header := w.committed.map Prod.snd

/-- `w.WriteHeader(code)`, with `none` for a panic. A call after the final status was
sent is ignored; otherwise a code outside `100..999` panics (`checkWriteHeaderCode`) and
nothing is sent, a `1xx` code other than `101` sends an informational response and leaves
the final status open, and any other code is sent as the final status together with the
current header map. -/
def ResponseWriter.WriteHeader (w : ResponseWriter) (code : Int) : Option ResponseWriter :=
  match w.committed with
  | some _ => some w
  | none =>
    if code < 100 ∨ code > 999 then none
    else if code ≤ 199 ∧ code ≠ 101 then some { w with interim := w.interim ++ [code] }
    else some { w with committed := some (code, w.header) }

/-- `w.Write(data)`: sends `200` first if no final status was sent yet, then the bytes. -/
def ResponseWriter.Write (w : ResponseWriter) (data : String) : ResponseWriter :=
  let w1 := (w.WriteHeader StatusOK).getD w
  { w1 with body := w1.body ++ data }

/-- The header edits of `http.Error`: `h.Del("Content-Length")`, then `h.Set` of
`Content-Type` and `X-Content-Type-Options`. -/
def errorHeader (h : Header) : Header :=
  ((h.erase "Content-Length").insert "Content-Type"
    ["text/plain; charset=utf-8"]).insert "X-Content-Type-Options" ["nosniff"]

/-- `http.Error(w, msg, code)`: resets the content headers, calls `w.WriteHeader(code)`,
writes the message followed by a newline; `none` if `WriteHeader` panics. -/
def httpError (w : ResponseWriter) (msg : String) (code : Int) : Option ResponseWriter :=
  match ({ w with header := errorHeader w.header } : ResponseWriter).WriteHeader code with
  | none => none
  | some w1 => some (w1.Write (msg ++ "\n"))

/-- `http.NewRequest(method, url, body)`: an empty method stands for `GET`; an error for a
method that is not a token or a target that does not parse; else a request with that
method, the parsed target, the body and an empty header map. -/
def NewRequest (net : Net) (method url : String) (body : Stream) : Except String Request :=
  let method := if method = "" then "GET" else method
  if !net.validMethod method then .error "net/http: invalid method"
  else
    match net.requestURL url with
    | .error e => .error e
    | .ok u => .ok { Method := method, URL := u, RequestURI := "", Header := ∅, Body := body }

/-- `for key, value := range src { dst[key] = value }`: each key of `src` is assigned its
whole value list. -/
def rangeAssign (src : List (Sigma fun _ : String => List String)) (dst : Header) : Header :=
  src.foldl (fun h e => h.insert e.1 e.2) dst

/-- `io.Copy(w, body)`: writes what the stream yields; the flag is `err != nil`, raised by
a failing read of the stream or by a failing write to the client. `writeError` tells
whether writing the bytes to `w` fails (the status allows no body, the declared length is
exceeded, the client is gone), and if so which bytes were accepted before the error. -/
def ioCopy (writeError : Option String) (w : ResponseWriter) (body : Stream) :
    ResponseWriter × Bool :=
  if body.data = "" then (w, body.fails)
  else
    match writeError with
    | some accepted => (w.Write accepted, true)
    | none => (w.Write body.data, body.fails)

/-- What a call of `forwardRequest` leaves: the response writer, the requests it handed to
`client.Do`, in order, and whether the call ended in a panic instead of returning. -/
structure Forwarded where
  w : ResponseWriter
  sent : List Request
  panicked : Bool
  deriving DecidableEq

/-- `forwardRequest(w, r, backendURL)`. -/
def forwardRequest (net : Net) (w : ResponseWriter) (r : Request) (backendURL : URL) :
    Forwarded :=
  match NewRequest net r.Method (backendURL.String ++ r.RequestURI) r.Body with
  | .error _ =>
    match httpError w "Failed to create request" StatusInternalServerError with
    | some w1 => { w := w1, sent := [], panicked := false }
    | none => { w := w, sent := [], panicked := true }
  | .ok req0 =>
    let req := { req0 with Header := r.Header }
    match net.roundTrip req with
    | .error _ =>
      match httpError w "Failed to forward request" StatusBadGateway with
      | some w1 => { w := w1, sent := [req], panicked := false }
      | none => { w := w, sent := [req], panicked := true }
    | .ok resp =>
      let w1 := { w with header := rangeAssign resp.Header.entries w.header }
      match w1.WriteHeader resp.StatusCode with
      | none => { w := w1, sent := [req], panicked := true }
      | some w2 =>
        let (w3, err) := ioCopy (net.writeError resp) w2 resp.Body
        if err then
          match httpError w3 "Failed to copy response body" StatusInternalServerError with
          | some w4 => { w := w4, sent := [req], panicked := false }
          | none => { w := w3, sent := [req], panicked := true }
        else { w := w3, sent := [req], panicked := false }

/-- A status code that `WriteHeader` sends as the final status of a response: `101` or a
code in `200..999`. -/
def finalStatus (code : Int) : Prop := code = 101 ∨ (200 ≤ code ∧ code ≤ 999)

instance (code : Int) : Decidable (finalStatus code) := by
  unfold finalStatus; infer_instance

/-! ## Sample collaborators -/

/-- The re-encoding that parsing and rendering a target apply to a double quote; other
characters are kept in this sample. -/
def escapeQuote (s : String) : String :=
  String.join (s.toList.map (fun c => if c = Char.ofNat 34 then "%22" else String.singleton c))

/-- An inbound `GET /index?x=1` with one header and an empty body. -/
def sampleRequest : Request :=
  { Method := "GET", URL := ⟨"/index?x=1"⟩, RequestURI := "/index?x=1",
    Header := AList.singleton "Accept" ["text/html"], Body := { data := "", fails := false } }

/-- An inbound `GET /a"b`, a request line the server accepts. -/
def quoteRequest : Request :=
  { Method := "GET", URL := ⟨"/a\"b"⟩, RequestURI := "/a\"b",
    Header := AList.singleton "Accept" ["text/html"], Body := { data := "", fails := false } }

/-- A backend answer: status 404, one header, a short body read to its end. -/
def sampleResponse : Response :=
  { StatusCode := 404, Header := AList.singleton "Content-Type" ["text/html"],
    Body := { data := "Hello from the backend server 1!", fails := false } }

/-- A backend answer whose body stream breaks after five bytes. -/
def brokenResponse : Response :=
  { StatusCode := 200, Header := AList.singleton "Content-Type" ["text/html"],
    Body := { data := "Hello", fails := true } }

/-- A backend answer with the status line `HTTP/1.1 099 x`. -/
def oddResponse : Response :=
  { StatusCode := 99, Header := AList.singleton "Content-Type" ["text/html"],
    Body := { data := "Hello", fails := false } }

/-- A network in which `http.NewRequest` rejects every target. -/
def netRejecting : Net :=
  { validMethod := fun _ => true,
    requestURL := fun _ => .error "parse error",
    get := fun _ => .error "unreachable",
    roundTrip := fun _ => .error "unreachable",
    writeError := fun _ => none }

/-- A network in which every backend refuses the connection. -/
def netRefusing : Net :=
  { validMethod := fun _ => true,
    requestURL := fun s => .ok ⟨escapeQuote s⟩,
    get := fun _ => .error "connection refused",
    roundTrip := fun _ => .error "connection refused",
    writeError := fun _ => none }

/-- A network whose backend answers every request with `sampleResponse`. -/
def netAnswering : Net :=
  { validMethod := fun _ => true,
    requestURL := fun s => .ok ⟨escapeQuote s⟩,
    get := fun _ => .ok sampleResponse,
    roundTrip := fun _ => .ok sampleResponse,
    writeError := fun _ => none }

/-- A network whose backend answers every request with `brokenResponse`. -/
def netBreaking : Net :=
  { validMethod := fun _ => true,
    requestURL := fun s => .ok ⟨escapeQuote s⟩,
    get := fun _ => .ok brokenResponse,
    roundTrip := fun _ => .ok brokenResponse,
    writeError := fun _ => none }

/-- A network whose backend answers every request with `oddResponse`. -/
def netOdd : Net :=
  { validMethod := fun _ => true,
    requestURL := fun s => .ok ⟨escapeQuote s⟩,
    get := fun _ => .ok oddResponse,
    roundTrip := fun _ => .ok oddResponse,
    writeError := fun _ => none }

/-- A response writer on which the handler has already set a `Content-Type`. -/
def writerWithType : ResponseWriter :=
  { header := AList.singleton "Content-Type" ["application/json"], interim := [],
    committed := none, body := "" }

/-! ## Selector: basic facts -/

theorem wrapInt32_eq_self {x : Int} (h1 : -2147483648 ≤ x) (h2 : x ≤ 2147483647) :
    wrapInt32 x = x := by
  unfold wrapInt32; omega

theorem atomicAddInt32_one_of_nat (c : Nat) (h : (c : Int) + 1 ≤ 2147483647) :
    atomicAddInt32 (c : Int) 1 = ((c + 1 : Nat) : Int) := by
  unfold atomicAddInt32
  rw [wrapInt32_eq_self (by omega) (by omega)]
  push_cast; rfl

theorem getNextServerObs_succ (obs : Nat → List Server) (fuel : Nat) (c : Int) :
    getNextServerObs obs (fuel + 1) c =
      match loopBody (obs 0) c with
      | .found i s c' => .returned i s c'
      | .panicked c' => .panicked c'
      | .retry c' => getNextServerObs (fun t => obs (t + 1)) fuel c' := rfl

theorem getNextServer_succ (sv : List Server) (fuel : Nat) (c : Int) :
    getNextServer sv (fuel + 1) c =
      match loopBody sv c with
      | .found i s c' => .returned i s c'
      | .panicked c' => .panicked c'
      | .retry c' => getNextServer sv fuel c' := rfl

theorem inspect_found {sv : List Server} {v : Int} {i : Nat} {s : Server} {c : Int}
    (h : inspect sv v = .found i s c) : sv[i]? = some s ∧ s.Healthy = true ∧ c = v := by
  unfold inspect at h
  split at h
  · cases h
  · simp only at h
    split at h
    · cases h
    · split at h
      · cases h
      · rename_i srv hget
        split at h
        · rename_i hh
          cases h
          exact ⟨hget, hh, rfl⟩
        · cases h

/-- On a non-negative post-increment value the lookup is the mathematical remainder. -/
theorem inspect_of_nat (sv : List Server) (v : Nat) (hne : sv ≠ []) :
    inspect sv (v : Int) =
      match sv[v % sv.length]? with
      | some s => if s.Healthy then .found (v % sv.length) s v else .retry v
      | none => .panicked v := by
  have hlen : sv.length ≠ 0 := by
    intro h; exact hne (List.length_eq_zero.mp h)
  unfold inspect
  rw [if_neg hlen]
  have ht : Int.tmod (v : Int) (sv.length : Int) = ((v % sv.length : Nat) : Int) := rfl
  simp only [ht, Int.toNat_ofNat]
  rw [if_neg (by omega)]
  cases sv[v % sv.length]? <;> rfl

theorem loopBody_of_nat (sv : List Server) (c : Nat) (hne : sv ≠ [])
    (hc : (c : Int) + 1 ≤ 2147483647) :
    loopBody sv (c : Int) =
      match sv[(c + 1) % sv.length]? with
      | some s =>
        if s.Healthy then .found ((c + 1) % sv.length) s ((c + 1 : Nat) : Int)
        else .retry ((c + 1 : Nat) : Int)
      | none => .panicked ((c + 1 : Nat) : Int) := by
  unfold loopBody
  rw [atomicAddInt32_one_of_nat c hc]
  exact inspect_of_nat sv (c + 1) hne

theorem length_pos_of_ne_nil {sv : List Server} (hne : sv ≠ []) : 0 < sv.length :=
  List.length_pos.mpr hne

theorem loopBody_retry (sv : List Server) (c : Nat) (hne : sv ≠ [])
    (hc : (c : Int) + 1 ≤ 2147483647) (hu : healthyAt sv ((c + 1) % sv.length) = false) :
    loopBody sv (c : Int) = .retry ((c + 1 : Nat) : Int) := by
  rw [loopBody_of_nat sv c hne hc]
  have hlt : (c + 1) % sv.length < sv.length := Nat.mod_lt _ (length_pos_of_ne_nil hne)
  unfold healthyAt at hu
  rw [List.getElem?_eq_getElem hlt] at hu ⊢
  simp only at hu ⊢
  rw [if_neg (by simp [hu])]

theorem loopBody_found (sv : List Server) (c : Nat) (hne : sv ≠ [])
    (hc : (c : Int) + 1 ≤ 2147483647) (hh : healthyAt sv ((c + 1) % sv.length) = true) :
    ∃ s, sv[(c + 1) % sv.length]? = some s ∧ s.Healthy = true ∧
      loopBody sv (c : Int) = .found ((c + 1) % sv.length) s ((c + 1 : Nat) : Int) := by
  rw [loopBody_of_nat sv c hne hc]
  have hlt : (c + 1) % sv.length < sv.length := Nat.mod_lt _ (length_pos_of_ne_nil hne)
  unfold healthyAt at hh
  rw [List.getElem?_eq_getElem hlt] at hh ⊢
  simp only at hh
  exact ⟨_, rfl, hh, by simp [hh]⟩

/-- Unhealthy candidates are skipped, one increment each, while the counter stays below
`2^31 - 1`. -/
theorem getNextServer_skip (sv : List Server) (hne : sv ≠ []) (m : Nat) :
    ∀ (c f : Nat), (c : Int) + m ≤ 2147483647 →
      (∀ j, j < m → healthyAt sv ((c + 1 + j) % sv.length) = false) →
      getNextServer sv (m + f) (c : Int) = getNextServer sv f ((c + m : Nat) : Int) := by
  induction m with
  | zero => intro c f _ _; simp
  | succ m ih =>
    intro c f hc hu
    have h0 : healthyAt sv ((c + 1) % sv.length) = false := by
      have := hu 0 (Nat.succ_pos m)
      simpa using this
    have hstep : m + 1 + f = (m + f) + 1 := by omega
    rw [hstep, getNextServer_succ, loopBody_retry sv c hne (by omega) h0]
    simp only
    rw [ih (c + 1) f (by push_cast; omega)
      (fun j hj => by
        have := hu (j + 1) (by omega)
        rwa [show c + 1 + (j + 1) = c + 1 + 1 + j by omega] at this)]
    congr 2
    omega

theorem getNextServer_skip_all (sv : List Server) (hne : sv ≠ []) (m c : Nat)
    (hc : (c : Int) + m ≤ 2147483647)
    (hu : ∀ j, j < m → healthyAt sv ((c + 1 + j) % sv.length) = false) :
    getNextServer sv m (c : Int) = .running ((c + m : Nat) : Int) := by
  have := getNextServer_skip sv hne m c 0 hc hu
  simpa [getNextServer, getNextServerObs] using this

theorem getNextServer_hit (sv : List Server) (hne : sv ≠ []) (m c f : Nat)
    (hc : (c : Int) + m + 1 ≤ 2147483647)
    (hu : ∀ j, j < m → healthyAt sv ((c + 1 + j) % sv.length) = false)
    (hh : healthyAt sv ((c + 1 + m) % sv.length) = true) :
    ∃ s, sv[(c + 1 + m) % sv.length]? = some s ∧ s.Healthy = true ∧
      getNextServer sv (m + (f + 1)) (c : Int) =
        .returned ((c + 1 + m) % sv.length) s ((c + 1 + m : Nat) : Int) := by
  have hh2 : healthyAt sv ((c + m + 1) % sv.length) = true := by
    rwa [show c + m + 1 = c + 1 + m by omega]
  obtain ⟨s, hs, hhs, hbody⟩ := loopBody_found sv (c + m) hne (by push_cast; omega) hh2
  refine ⟨s, ?_, hhs, ?_⟩
  · rwa [show c + 1 + m = c + m + 1 by omega]
  · rw [getNextServer_skip sv hne m c (f + 1) (by omega) hu, getNextServer_succ, hbody]
    simp only
    rw [show c + 1 + m = c + m + 1 by omega]

/-- Every residue is met within one lap after the cursor. -/
theorem lap_reaches (n c h : Nat) (hh : h < n) :
    (c + 1 + (h + n - (c + 1) % n) % n) % n = h := by
  have hn : 0 < n := by omega
  have ha : (c + 1) % n < n := Nat.mod_lt _ hn
  have hd := Nat.div_add_mod (c + 1) n
  rw [Nat.add_mod, Nat.mod_mod, ← Nat.add_mod]
  rw [show c + 1 + (h + n - (c + 1) % n) = h + n + n * ((c + 1) / n) by omega]
  rw [Nat.add_mul_mod_self_left, Nat.add_mod_right, Nat.mod_eq_of_lt hh]

theorem exists_healthy_index {sv : List Server} (hex : ∃ s ∈ sv, s.Healthy = true) :
    ∃ h, h < sv.length ∧ healthyAt sv h = true := by
  obtain ⟨s, hs, hhs⟩ := hex
  obtain ⟨h, hlt, hget⟩ := List.getElem_of_mem hs
  refine ⟨h, hlt, ?_⟩
  unfold healthyAt
  rw [List.getElem?_eq_getElem hlt, hget]
  exact hhs

theorem healthyAt_of_allHealthy {sv : List Server} (hall : allHealthy sv) {i : Nat}
    (hi : i < sv.length) : healthyAt sv i = true := by
  unfold healthyAt
  rw [List.getElem?_eq_getElem hi]
  exact hall _ (List.getElem_mem _)

theorem healthyAt_of_allUnhealthy {sv : List Server} (hall : allUnhealthy sv) (i : Nat) :
    healthyAt sv i = false := by
  unfold healthyAt
  cases h : sv[i]? with
  | none => rfl
  | some s => exact hall s (List.getElem?_mem h)

/-- With every backend healthy a call takes one iteration and returns the next index. -/
theorem getNextServer_allHealthy (sv : List Server) (hne : sv ≠ []) (hall : allHealthy sv)
    (c f : Nat) (hc : (c : Int) + 1 ≤ 2147483647) :
    ∃ s, sv[(c + 1) % sv.length]? = some s ∧
      getNextServer sv (f + 1) (c : Int) =
        .returned ((c + 1) % sv.length) s ((c + 1 : Nat) : Int) := by
  have hlt : (c + 1) % sv.length < sv.length := Nat.mod_lt _ (length_pos_of_ne_nil hne)
  obtain ⟨s, hs, _, hr⟩ := getNextServer_hit sv hne 0 c f (by omega)
    (fun j hj => absurd hj (Nat.not_lt_zero j))
    (healthyAt_of_allHealthy hall hlt)
  exact ⟨s, hs, by simpa using hr⟩

/-- A run of `K` calls on an all-healthy registry, while the counter stays in range,
advances the counter by `K`. -/
theorem sequentialCalls_split (sv : List Server) (hne : sv ≠ []) (hall : allHealthy sv)
    (f M : Nat) : ∀ (K c : Nat), (c : Int) + K ≤ 2147483647 →
      ∃ pre : List CallResult, pre.length = K ∧
        sequentialCalls sv (f + 1) (K + M) (c : Int) =
          pre ++ sequentialCalls sv (f + 1) M ((c + K : Nat) : Int) := by
  intro K
  induction K with
  | zero => intro c _; exact ⟨[], rfl, by simp⟩
  | succ K ih =>
    intro c hc
    obtain ⟨s, _, hr⟩ := getNextServer_allHealthy sv hne hall c f (by omega)
    obtain ⟨pre, hlen, hpre⟩ := ih (c + 1) (by push_cast; omega)
    refine ⟨.returned ((c + 1) % sv.length) s ((c + 1 : Nat) : Int) :: pre, by simp [hlen], ?_⟩
    rw [show K + 1 + M = (K + M) + 1 by omega]
    show getNextServer sv (f + 1) (c : Int) ::
        sequentialCalls sv (f + 1) (K + M) (getNextServer sv (f + 1) (c : Int)).counter = _
    rw [hr]
    simp only [CallResult.counter, List.cons_append, List.cons.injEq, true_and]
    rw [hpre, show c + 1 + K = c + (K + 1) by omega]

/-! ## Selector: the claims -/

/-- C1 (failing input): on the initial registry (two healthy backends) and from the initial
counter `0`, a run of `2^31 + 1` sequential calls of `getNextServer` does not stay cyclic:
the last call panics with an index out of range instead of returning a backend, because
the `int32` counter has wrapped to a negative value. -/
theorem sequentialCalls_wrap_panics :
    (sequentialCalls servers 1 2147483649 currentServer).getLast? =
      some (.panicked (-2147483647)) := by
  obtain ⟨pre, _, h⟩ := sequentialCalls_split servers (by decide)
    (by decide) 0 2 2147483647 0 (by norm_num)
  have tail : sequentialCalls servers (0 + 1) 2 ((0 + 2147483647 : Nat) : Int) =
      [.returned 0 ⟨⟨"http://localhost:8081"⟩, true⟩ (-2147483648),
       .panicked (-2147483647)] := by decide
  have h2 : sequentialCalls servers 1 2147483649 currentServer =
      pre ++ [.returned 0 ⟨⟨"http://localhost:8081"⟩, true⟩ (-2147483648),
        .panicked (-2147483647)] := by
    rw [← tail]; exact h
  rw [h2]
  simp

/-- C2: whenever a call of `getNextServer` returns a backend, that backend is the registry
entry at the returned index as one of the call's iterations read it, and its `Healthy` flag
was `true` at that reading; this holds for every registry, also one whose flags change
while the call runs, and every counter value. -/
theorem getNextServer_returns_healthy (obs : Nat → List Server) (fuel : Nat) (c : Int)
    (i : Nat) (s : Server) (c2 : Int)
    (h : getNextServerObs obs fuel c = .returned i s c2) :
    s.Healthy = true ∧ ∃ t, t < fuel ∧ (obs t)[i]? = some s := by
  induction fuel generalizing obs c with
  | zero => cases h
  | succ fuel ih =>
    rw [getNextServerObs_succ] at h
    cases hb : loopBody (obs 0) c with
    | found j srv c3 =>
      rw [hb] at h
      simp only [CallResult.returned.injEq] at h
      obtain ⟨rfl, rfl, rfl⟩ := h
      obtain ⟨hget, hh, _⟩ := inspect_found hb
      exact ⟨hh, 0, Nat.succ_pos _, hget⟩
    | panicked c3 => rw [hb] at h; cases h
    | retry c3 =>
      rw [hb] at h
      obtain ⟨hh, t, ht, hget⟩ := ih (fun t => obs (t + 1)) c3 h
      exact ⟨hh, t + 1, Nat.succ_lt_succ ht, hget⟩

/-- A concrete call: the unhealthy first backend is skipped and the second is returned. -/
theorem getNextServer_returns_healthy_witness :
    getNextServerObs (fun _ => serversFirstDown) 2 1 =
        .returned 1 ⟨⟨"http://localhost:8082"⟩, true⟩ 3 ∧
      ((⟨⟨"http://localhost:8082"⟩, true⟩ : Server).Healthy = true ∧
        ∃ t, t < 2 ∧ ((fun _ => serversFirstDown) t)[1]? =
          some (⟨⟨"http://localhost:8082"⟩, true⟩ : Server)) :=
  ⟨by decide, getNextServer_returns_healthy (fun _ => serversFirstDown) 2 1 1 _ 3 (by decide)⟩

/-- C3 (failing input): with both backends of the registry unhealthy and the flags
unchanged, a call started at the initial counter `0` is no longer running after
`2^31 + 1` iterations: it has stopped with an index-out-of-range panic. -/
theorem getNextServer_all_down_panics :
    getNextServer serversDown 2147483649 currentServer = .panicked (-2147483647) := by
  have h := getNextServer_skip serversDown (by decide) 2147483647 0 2 (by norm_num)
    (fun j _ => healthyAt_of_allUnhealthy (by decide) _)
  exact h.trans (by decide)

/-- C8 (failing input): on the initial registry (two healthy backends), four calls that
draw the consecutive post-increment values following the counter `2^31 - 1` select
backend 0 twice and backend 1 never; the two calls that drew an odd negative value
panic. -/
theorem selectionCount_after_wrap :
    selectionCount (sequentialCalls servers 1 4 2147483647) 0 = 2 ∧
      selectionCount (sequentialCalls servers 1 4 2147483647) 1 = 0 ∧
      concurrentSelections servers [-2147483648, -2147483647, -2147483646, -2147483645] =
        sequentialCalls servers 1 4 2147483647 := by decide

/-- C9 (failing input): on the registry `[unhealthy, healthy]` with the counter at
`2^31 - 1`, the call does not return the first healthy backend after the cursor (index 1):
the first candidate (index 0) is skipped and the second lookup panics. -/
theorem getNextServer_skip_then_panics :
    getNextServer serversFirstDown 2 2147483647 = .panicked (-2147483647) ∧
      ∀ fuel, getNextServer serversFirstDown (fuel + 2) 2147483647 =
        .panicked (-2147483647) := by
  refine ⟨by decide, fun fuel => ?_⟩
  rw [getNextServer_succ]
  have h1 : loopBody serversFirstDown 2147483647 = .retry (-2147483648) := by decide
  rw [h1]
  simp only
  rw [getNextServer_succ]
  have h2 : loopBody serversFirstDown (-2147483648) = .panicked (-2147483647) := by decide
  rw [h2]

/-- C10 (failing input): the index computed from the incremented counter is negative once
the counter is negative: `-1` on the two-backend registry at the counter `-2^31`, where the
lookup panics, and `-2` on a three-backend registry right after the wrap at `2^31 - 1`. -/
theorem index_out_of_range_after_wrap :
    Int.tmod (atomicAddInt32 (-2147483648) 1) ((servers.length : Nat) : Int) = -1 ∧
      loopBody servers (-2147483648) = .panicked (-2147483647) ∧
      Int.tmod (atomicAddInt32 2147483647 1) ((3 : Nat) : Int) = -2 := by decide

/-! ## Selector: behaviour while the counter stays in `[0, 2^31 - 1]` -/

/-- While the counter stays in `[0, 2^31 - 1]`, sequential calls on an all-healthy registry
select in strict cyclic order: the `k`-th call of a run started at counter `c` returns the
backend at index `(c mod N + k) mod N` and leaves the counter at `c + k`. -/
theorem sequentialCalls_cyclic_in_range (sv : List Server) (hne : sv ≠ [])
    (hall : allHealthy sv) (f M c k : Nat) (hc : (c : Int) + M ≤ 2147483647)
    (hk1 : 1 ≤ k) (hkM : k ≤ M) :
    ∃ s, sv[(c % sv.length + k) % sv.length]? = some s ∧
      (sequentialCalls sv (f + 1) M (c : Int))[k - 1]? =
        some (.returned ((c % sv.length + k) % sv.length) s ((c + k : Nat) : Int)) := by
  obtain ⟨pre, hlen, hpre⟩ :=
    sequentialCalls_split sv hne hall f (M - k + 1) (k - 1) c (by omega)
  obtain ⟨s, hs, hr⟩ := getNextServer_allHealthy sv hne hall (c + (k - 1)) f
    (by push_cast; omega)
  have hidx : (c + (k - 1) + 1) % sv.length = (c % sv.length + k) % sv.length := by
    rw [show c + (k - 1) + 1 = c + k by omega, Nat.mod_add_mod]
  rw [hidx] at hs hr
  refine ⟨s, hs, ?_⟩
  rw [show M = k - 1 + (M - k + 1) by omega, hpre]
  rw [List.getElem?_append_right (by omega), hlen, Nat.sub_self]
  simp only [sequentialCalls, List.getElem?_cons_zero]
  rw [hr, show c + (k - 1) + 1 = c + k by omega]

/-- The cyclic order at a concrete run: the third call from counter 4 returns backend 1. -/
theorem sequentialCalls_cyclic_in_range_witness :
    (sequentialCalls servers 1 3 (4 : Nat))[3 - 1]? =
      some (.returned 1 ⟨⟨"http://localhost:8082"⟩, true⟩ 7) := by
  obtain ⟨s, hs, h⟩ := sequentialCalls_cyclic_in_range servers (by decide)
    (by decide) 0 3 4 3 (by norm_num) (by norm_num) (by norm_num)
  have hs2 : s = ⟨⟨"http://localhost:8082"⟩, true⟩ := by
    have : servers[(4 % servers.length + 3) % servers.length]? =
        some (⟨⟨"http://localhost:8082"⟩, true⟩ : Server) := by decide
    rw [this] at hs
    exact (Option.some.inj hs).symm
  rw [hs2] at h
  exact h

/-- With every backend unhealthy no call ever returns a backend, whatever the counter. -/
theorem getNextServer_all_unhealthy_never_returns (sv : List Server)
    (hall : allUnhealthy sv) (n : Nat) (c : Int) :
    (getNextServer sv n c).index? = none := by
  induction n generalizing c with
  | zero => rfl
  | succ n ih =>
    rw [getNextServer_succ]
    cases hb : loopBody sv c with
    | found j srv c3 =>
      obtain ⟨hget, hh, _⟩ := inspect_found hb
      have := hall srv (List.getElem?_mem hget)
      rw [this] at hh
      cases hh
    | panicked c3 => rfl
    | retry c3 => exact ih c3

/-- No backend is returned by five iterations on the all-unhealthy registry. -/
theorem getNextServer_all_unhealthy_never_returns_witness :
    (getNextServer serversDown 5 0).index? = none :=
  getNextServer_all_unhealthy_never_returns serversDown (by decide) 5 0

/-- With every backend unhealthy and the flags unchanged, the loop is still running after
`n` iterations as long as the counter has not passed `2^31 - 1`. -/
theorem getNextServer_all_unhealthy_spins_in_range (sv : List Server) (hne : sv ≠ [])
    (hall : allUnhealthy sv) (n c : Nat) (hc : (c : Int) + n ≤ 2147483647) :
    getNextServer sv n (c : Int) = .running ((c + n : Nat) : Int) :=
  getNextServer_skip_all sv hne n c hc (fun _ _ => healthyAt_of_allUnhealthy hall _)

/-- Seven iterations from counter 3 on the all-unhealthy registry are still running. -/
theorem getNextServer_all_unhealthy_spins_in_range_witness :
    getNextServer serversDown 7 (3 : Nat) = .running ((3 + 7 : Nat) : Int) :=
  getNextServer_all_unhealthy_spins_in_range serversDown (by decide)
    (by decide) 7 3 (by norm_num)

/-- While the counter stays in `[0, 2^31 - 1]`, a call on a registry with a healthy backend
and fixed flags returns after `k ≤ N` iterations the first healthy backend in cyclic order
after the cursor, index `(c + k) mod N`, and leaves the counter at `c + k`. -/
theorem getNextServer_first_healthy_in_range (sv : List Server) (c : Nat)
    (hex : ∃ s ∈ sv, s.Healthy = true) (hc : (c : Int) + sv.length ≤ 2147483647) :
    ∃ k s, 1 ≤ k ∧ k ≤ sv.length ∧ sv[(c + k) % sv.length]? = some s ∧ s.Healthy = true ∧
      (∀ j, 1 ≤ j → j < k → healthyAt sv ((c + j) % sv.length) = false) ∧
      (∀ fuel, k ≤ fuel → getNextServer sv fuel (c : Int) =
        .returned ((c + k) % sv.length) s ((c + k : Nat) : Int)) ∧
      (∀ fuel, fuel < k → getNextServer sv fuel (c : Int) =
        .running ((c + fuel : Nat) : Int)) := by
  obtain ⟨h, hlt, hh⟩ := exists_healthy_index hex
  have hne : sv ≠ [] := by
    intro h0; rw [h0] at hlt; exact Nat.not_lt_zero _ hlt
  have hP : ∃ j, healthyAt sv ((c + 1 + j) % sv.length) = true :=
    ⟨(h + sv.length - (c + 1) % sv.length) % sv.length, by rw [lap_reaches _ _ _ hlt]; exact hh⟩
  have hk0 : Nat.find hP < sv.length :=
    lt_of_le_of_lt (Nat.find_min' hP (by rw [lap_reaches _ _ _ hlt]; exact hh))
      (Nat.mod_lt _ (length_pos_of_ne_nil hne))
  have hu : ∀ j, j < Nat.find hP → healthyAt sv ((c + 1 + j) % sv.length) = false :=
    fun j hj => by simpa using Nat.find_min hP hj
  have hhit := Nat.find_spec hP
  obtain ⟨s, hs, hhs, _⟩ := getNextServer_hit sv hne (Nat.find hP) c 0 (by omega) hu hhit
  refine ⟨Nat.find hP + 1, s, by omega, by omega, ?_, hhs, ?_, ?_, ?_⟩
  · rwa [show c + (Nat.find hP + 1) = c + 1 + Nat.find hP by omega]
  · intro j hj1 hj2
    have := hu (j - 1) (by omega)
    rwa [show c + 1 + (j - 1) = c + j by omega] at this
  · intro fuel hfuel
    obtain ⟨s2, hs2, _, hr⟩ :=
      getNextServer_hit sv hne (Nat.find hP) c (fuel - (Nat.find hP + 1)) (by omega) hu hhit
    rw [hs] at hs2
    cases hs2
    rw [show Nat.find hP + (fuel - (Nat.find hP + 1) + 1) = fuel by omega] at hr
    rw [hr, show c + (Nat.find hP + 1) = c + 1 + Nat.find hP by omega]
  · intro fuel hfuel
    exact getNextServer_skip_all sv hne fuel c (by omega) (fun j hj => hu j (by omega))

/-- The first healthy backend after the cursor on the registry whose first backend is down. -/
theorem getNextServer_first_healthy_in_range_witness :
    ∃ k s, 1 ≤ k ∧ k ≤ serversFirstDown.length ∧
      serversFirstDown[(1 + k) % serversFirstDown.length]? = some s ∧ s.Healthy = true ∧
      (∀ j, 1 ≤ j → j < k →
        healthyAt serversFirstDown ((1 + j) % serversFirstDown.length) = false) ∧
      (∀ fuel, k ≤ fuel → getNextServer serversFirstDown fuel ((1 : Nat) : Int) =
        .returned ((1 + k) % serversFirstDown.length) s ((1 + k : Nat) : Int)) ∧
      (∀ fuel, fuel < k → getNextServer serversFirstDown fuel ((1 : Nat) : Int) =
        .running ((1 + fuel : Nat) : Int)) :=
  getNextServer_first_healthy_in_range serversFirstDown 1
    ⟨⟨⟨"http://localhost:8082"⟩, true⟩, by decide, rfl⟩ (by decide)

/-- For a counter in `[-1, 2^31 - 2]` and a registry of `N ≥ 1` backends, the index computed
from the incremented counter lies in `[0, N)`. -/
theorem index_in_range_nonneg (n : Nat) (c : Int) (hn : 1 ≤ n) (h1 : -1 ≤ c)
    (h2 : c ≤ 2147483646) :
    0 ≤ Int.tmod (atomicAddInt32 c 1) (n : Int) ∧
      Int.tmod (atomicAddInt32 c 1) (n : Int) < (n : Int) := by
  unfold atomicAddInt32
  rw [wrapInt32_eq_self (by omega) (by omega)]
  exact ⟨Int.tmod_nonneg _ (by omega), Int.tmod_lt_of_pos _ (by omega)⟩

/-- The index is in range at the last counter value before the wrap. -/
theorem index_in_range_nonneg_witness :
    0 ≤ Int.tmod (atomicAddInt32 2147483646 1) ((2 : Nat) : Int) ∧
      Int.tmod (atomicAddInt32 2147483646 1) ((2 : Nat) : Int) < ((2 : Nat) : Int) :=
  index_in_range_nonneg 2 2147483646 (by decide) (by decide) (by decide)

/-- On a one-backend registry the computed index is `0` for every counter value. -/
theorem index_single_backend (c : Int) : Int.tmod (atomicAddInt32 c 1) ((1 : Nat) : Int) = 0 := by
  simp

theorem count_shift_modEq (n a q j : Nat) (hn : 0 < n) :
    Nat.count (fun k => (a + k) ≡ j [MOD n]) (q * n) = q := by
  have h1 := Nat.count_add (p := fun x => x ≡ j [MOD n]) a (q * n)
  rw [Nat.count_modEq_card _ hn, Nat.count_modEq_card _ hn] at h1
  rw [Nat.add_mul_div_right _ _ hn, Nat.add_mul_mod_self_right] at h1
  omega

theorem postIncrements_in_range (M : Nat) : ∀ c : Nat, (c : Int) + M ≤ 2147483647 →
    postIncrements (c : Int) M = (List.range M).map (fun k => ((c + 1 + k : Nat) : Int)) := by
  induction M with
  | zero => intro c _; rfl
  | succ M ih =>
    intro c hc
    rw [postIncrements, atomicAddInt32_one_of_nat c (by omega), ih (c + 1) (by push_cast; omega),
      List.range_succ_eq_map, List.map_cons, List.map_map]
    congr 1
    apply List.map_congr_left
    intro k _
    simp only [Function.comp, Nat.succ_eq_add_one]
    congr 1
    omega

theorem selectionCount_concurrent (sv : List Server) (hne : sv ≠ []) (hall : allHealthy sv)
    (j : Nat) (hj : j < sv.length) (ks : List Nat) :
    selectionCount (concurrentSelections sv (ks.map (fun (k : Nat) => (k : Int)))) j =
      ks.countP (fun k => decide (k ≡ j [MOD sv.length])) := by
  induction ks with
  | nil => rfl
  | cons k ks ih =>
    have hlt : k % sv.length < sv.length := Nat.mod_lt _ (length_pos_of_ne_nil hne)
    have hh := healthyAt_of_allHealthy hall hlt
    unfold healthyAt at hh
    rw [List.getElem?_eq_getElem hlt] at hh
    simp only at hh
    have hins : inspect sv (k : Int) = .found (k % sv.length) sv[k % sv.length] k := by
      rw [inspect_of_nat sv k hne, List.getElem?_eq_getElem hlt]
      simp [hh]
    unfold selectionCount concurrentSelections at ih ⊢
    rw [List.map_cons, List.map_cons, hins, List.countP_cons, ← ih]
    simp only [List.filter_cons, CallResult.index?]
    have hiff : (k % sv.length = j) ↔ k ≡ j [MOD sv.length] := by
      unfold Nat.ModEq
      rw [Nat.mod_eq_of_lt hj]
    by_cases hk : k % sv.length = j
    · have := hiff.mp hk
      simp [hk, this]
    · have : ¬ k ≡ j [MOD sv.length] := fun h => hk (hiff.mpr h)
      simp [hk, this]

/-- While the counter stays in `[0, 2^31 - 1]`, `q * B` calls on an all-healthy registry of
`B` backends that draw the consecutive post-increment values of the counter, in any
interleaving, select every backend exactly `q` times. -/
theorem selectionCount_balanced_in_range (sv : List Server) (hne : sv ≠ [])
    (hall : allHealthy sv) (q c : Nat) (hc : (c : Int) + q * sv.length ≤ 2147483647)
    (vals : List Int) (hperm : vals.Perm (postIncrements (c : Int) (q * sv.length)))
    (j : Nat) (hj : j < sv.length) :
    selectionCount (concurrentSelections sv vals) j = q := by
  have hpos := length_pos_of_ne_nil hne
  have hperm2 : (concurrentSelections sv vals).Perm
      (concurrentSelections sv (postIncrements (c : Int) (q * sv.length))) :=
    List.Perm.map _ hperm
  have hcount : selectionCount (concurrentSelections sv vals) j =
      selectionCount (concurrentSelections sv (postIncrements (c : Int) (q * sv.length))) j := by
    unfold selectionCount
    exact (hperm2.filter _).length_eq
  rw [hcount, postIncrements_in_range _ c (by push_cast; exact hc)]
  have hmap : (List.range (q * sv.length)).map (fun k => ((c + 1 + k : Nat) : Int)) =
      ((List.range (q * sv.length)).map (fun k => c + 1 + k)).map (fun (k : Nat) => (k : Int)) := by
    rw [List.map_map]; rfl
  rw [hmap, selectionCount_concurrent sv hne hall j hj, List.countP_map]
  exact count_shift_modEq sv.length (c + 1) q j hpos

/-- Four interleaved calls on the initial registry select backend 1 twice. -/
theorem selectionCount_balanced_in_range_witness :
    selectionCount (concurrentSelections servers [3, 1, 4, 2]) 1 = 2 :=
  selectionCount_balanced_in_range servers (by decide) (by decide) 2 0
    (by decide) [3, 1, 4, 2] (by decide) 1 (by decide)

/-! ## The health monitor: the claim -/

/-- C4: `healthCheck` leaves the backend's `Healthy` flag `true` exactly when the GET to
`<address>/health` gave no transport error and a response whose status is exactly 200, and
`false` on a transport error or any other status; the outcome does not depend on the
flag's previous value, and the address is untouched. -/
theorem healthCheck_sets_flag (net : Net) (server : Server) :
    ((healthCheck net server).Healthy = true ↔
        ∃ resp, net.get (server.URL.String ++ "/health") = .ok resp ∧ resp.StatusCode = 200) ∧
      ((healthCheck net server).Healthy = false ↔
        (∃ e, net.get (server.URL.String ++ "/health") = .error e) ∨
          ∃ resp, net.get (server.URL.String ++ "/health") = .ok resp ∧
            resp.StatusCode ≠ 200) ∧
      (healthCheck net server).URL = server.URL ∧
      healthCheck net { server with Healthy := !server.Healthy } = healthCheck net server := by
  unfold healthCheck StatusOK
  cases hg : net.get (server.URL.String ++ "/health") with
  | error e => simp
  | ok resp =>
    by_cases hc : resp.StatusCode = 200
    · simp [hc]
    · simp [hc]

/-! ## The forwarder: basic facts -/

theorem WriteHeader_final (w : ResponseWriter) (code : Int) (hw : w.committed = none)
    (hc : finalStatus code) :
    w.WriteHeader code = some { w with committed := some (code, w.header) } := by
  unfold finalStatus at hc
  unfold ResponseWriter.WriteHeader
  rw [hw]
  simp only
  rw [if_neg (by omega), if_neg (by omega)]

theorem WriteHeader_committed (w : ResponseWriter) (code : Int) (c : Int × Header)
    (hw : w.committed = some c) : w.WriteHeader code = some w := by
  unfold ResponseWriter.WriteHeader
  rw [hw]

theorem body_Write (w : ResponseWriter) (data : String) :
    (w.Write data).body = w.body ++ data := by
  unfold ResponseWriter.Write ResponseWriter.WriteHeader StatusOK
  cases w.committed <;> rfl

theorem committed_Write (w : ResponseWriter) (data : String) (c : Int × Header)
    (hw : w.committed = some c) : (w.Write data).committed = some c ∧
      (w.Write data).header = w.header := by
  unfold ResponseWriter.Write
  rw [WriteHeader_committed w _ c hw]
  exact ⟨hw, rfl⟩

/-- `http.Error` with a final status code never panics; it appends the message, and sends
the code if no final status was sent before. -/
theorem httpError_final (w : ResponseWriter) (msg : String) (code : Int)
    (hc : finalStatus code) :
    ∃ w1, httpError w msg code = some w1 ∧ w1.body = w.body ++ (msg ++ "\n") ∧
      (w.committed = none → w1.status = some code) ∧
      (∀ c, w.committed = some c → w1.committed = some c) := by
  obtain ⟨hd, im, cm, bd⟩ := w
  unfold httpError
  cases cm with
  | none =>
    rw [WriteHeader_final _ code rfl hc]
    refine ⟨_, rfl, ?_, ?_, ?_⟩
    · rw [body_Write]
    · intro _
      simp only [ResponseWriter.status]
      rw [(committed_Write _ (msg ++ "\n") _ rfl).1]
      rfl
    · intro c hcontra
      cases hcontra
  | some c0 =>
    rw [WriteHeader_committed _ code c0 rfl]
    refine ⟨_, rfl, ?_, ?_, ?_⟩
    · rw [body_Write]
    · intro hcontra
      cases hcontra
    · intro c hc2
      cases hc2
      exact (committed_Write _ _ c0 rfl).1

theorem finalStatus_500 : finalStatus StatusInternalServerError := by decide

theorem finalStatus_502 : finalStatus StatusBadGateway := by decide

/-- What a request built by `http.NewRequest` holds. -/
theorem NewRequest_ok_fields {net : Net} {method url : String} {body : Stream}
    {req : Request} (h : NewRequest net method url body = .ok req) :
    req.Method = (if method = "" then "GET" else method) ∧
      net.requestURL url = .ok req.URL ∧ req.Body = body ∧ req.Header = ∅ := by
  unfold NewRequest at h
  cases hv : net.validMethod (if method = "" then "GET" else method) with
  | false => simp [hv] at h
  | true =>
    cases hu : net.requestURL url with
    | error e => simp [hv, hu] at h
    | ok u =>
      simp [hv, hu] at h
      subst h
      exact ⟨rfl, rfl, rfl, rfl⟩

theorem forwardRequest_rejected (net : Net) (w : ResponseWriter) (r : Request)
    (backendURL : URL) (e : String)
    (h : NewRequest net r.Method (backendURL.String ++ r.RequestURI) r.Body = .error e) :
    forwardRequest net w r backendURL =
      match httpError w "Failed to create request" StatusInternalServerError with
      | some w1 => { w := w1, sent := [], panicked := false }
      | none => { w := w, sent := [], panicked := true } := by
  unfold forwardRequest
  rw [h]

theorem forwardRequest_accepted (net : Net) (w : ResponseWriter) (r : Request)
    (backendURL : URL) (req0 : Request)
    (h : NewRequest net r.Method (backendURL.String ++ r.RequestURI) r.Body = .ok req0) :
    forwardRequest net w r backendURL =
      match net.roundTrip { req0 with Header := r.Header } with
      | .error _ =>
        match httpError w "Failed to forward request" StatusBadGateway with
        | some w1 => { w := w1, sent := [{ req0 with Header := r.Header }], panicked := false }
        | none => { w := w, sent := [{ req0 with Header := r.Header }], panicked := true }
      | .ok resp =>
        match ({ w with header := rangeAssign resp.Header.entries w.header } :
            ResponseWriter).WriteHeader resp.StatusCode with
        | none =>
          { w := { w with header := rangeAssign resp.Header.entries w.header },
            sent := [{ req0 with Header := r.Header }], panicked := true }
        | some w2 =>
          if (ioCopy (net.writeError resp) w2 resp.Body).2 then
            match httpError (ioCopy (net.writeError resp) w2 resp.Body).1
                "Failed to copy response body" StatusInternalServerError with
            | some w4 =>
              { w := w4, sent := [{ req0 with Header := r.Header }], panicked := false }
            | none =>
              { w := (ioCopy (net.writeError resp) w2 resp.Body).1,
                sent := [{ req0 with Header := r.Header }], panicked := true }
          else
            { w := (ioCopy (net.writeError resp) w2 resp.Body).1,
              sent := [{ req0 with Header := r.Header }], panicked := false } := by
  unfold forwardRequest
  rw [h]

theorem sent_forwardRequest_accepted (net : Net) (w : ResponseWriter) (r : Request)
    (backendURL : URL) (req0 : Request)
    (h : NewRequest net r.Method (backendURL.String ++ r.RequestURI) r.Body = .ok req0) :
    (forwardRequest net w r backendURL).sent = [{ req0 with Header := r.Header }] := by
  rw [forwardRequest_accepted net w r backendURL req0 h]
  cases net.roundTrip { req0 with Header := r.Header } with
  | error e =>
    simp only
    cases httpError w "Failed to forward request" StatusBadGateway <;> rfl
  | ok resp =>
    simp only
    cases ({ w with header := rangeAssign resp.Header.entries w.header } :
        ResponseWriter).WriteHeader resp.StatusCode with
    | none => rfl
    | some w2 =>
      simp only
      split
      · cases httpError (ioCopy (net.writeError resp) w2 resp.Body).1
          "Failed to copy response body" StatusInternalServerError <;> rfl
      · rfl

theorem lookup_rangeAssign (k : String) :
    ∀ (src : List (Sigma fun _ : String => List String)) (dst : Header), src.NodupKeys →
      (rangeAssign src dst).lookup k =
        match src.dlookup k with
        | some v => some v
        | none => dst.lookup k := by
  intro src
  induction src with
  | nil => intro dst _; rfl
  | cons e es ih =>
    intro dst hnd
    obtain ⟨hnot, hes⟩ := List.nodupKeys_cons.mp hnd
    show (rangeAssign es (dst.insert e.1 e.2)).lookup k = _
    rw [ih _ hes]
    by_cases hk : k = e.1
    · subst hk
      rw [List.dlookup_eq_none.mpr hnot]
      obtain ⟨a, v⟩ := e
      simp [List.dlookup_cons_eq, AList.lookup_insert]
    · rw [List.dlookup_cons_ne _ _ hk, AList.lookup_insert_ne hk]

theorem ioCopy_committed (we : Option String) (w : ResponseWriter) (body : Stream)
    (c : Int × Header) (hw : w.committed = some c) :
    (ioCopy we w body).1.committed = some c ∧ (ioCopy we w body).1.header = w.header := by
  unfold ioCopy
  by_cases hd : body.data = ""
  · rw [if_pos hd]
    exact ⟨hw, rfl⟩
  · rw [if_neg hd]
    cases we with
    | none => exact ⟨(committed_Write w _ c hw).1, (committed_Write w _ c hw).2⟩
    | some acc => exact ⟨(committed_Write w _ c hw).1, (committed_Write w _ c hw).2⟩

theorem ioCopy_accepted (w : ResponseWriter) (body : Stream) :
    (ioCopy none w body).1.body = w.body ++ body.data ∧
      (ioCopy none w body).2 = body.fails := by
  unfold ioCopy
  by_cases hd : body.data = ""
  · rw [if_pos hd, hd]
    exact ⟨by simp, rfl⟩
  · rw [if_neg hd]
    exact ⟨body_Write _ _, rfl⟩

theorem forwardRequest_written (net : Net) (w : ResponseWriter) (r : Request)
    (backendURL : URL) (req0 : Request) (resp : Response) (w2 : ResponseWriter)
    (h : NewRequest net r.Method (backendURL.String ++ r.RequestURI) r.Body = .ok req0)
    (hresp : net.roundTrip { req0 with Header := r.Header } = .ok resp)
    (hW : ({ w with header := rangeAssign resp.Header.entries w.header } :
      ResponseWriter).WriteHeader resp.StatusCode = some w2) :
    forwardRequest net w r backendURL =
      if (ioCopy (net.writeError resp) w2 resp.Body).2 then
        match httpError (ioCopy (net.writeError resp) w2 resp.Body).1
            "Failed to copy response body" StatusInternalServerError with
        | some w4 =>
          { w := w4, sent := [{ req0 with Header := r.Header }], panicked := false }
        | none =>
          { w := (ioCopy (net.writeError resp) w2 resp.Body).1,
            sent := [{ req0 with Header := r.Header }], panicked := true }
      else
        { w := (ioCopy (net.writeError resp) w2 resp.Body).1,
          sent := [{ req0 with Header := r.Header }], panicked := false } := by
  rw [forwardRequest_accepted net w r backendURL req0 h, hresp]
  simp only
  rw [hW]

/-! ## The forwarder: the claims -/

/-- C5: on a response writer to which nothing was sent yet, `forwardRequest` maps failures
as follows. If building the outbound request fails, the client gets status 500, no request
is handed to the backend, and the bytes written are the fixed message
`Failed to create request`. If the request is built and the backend call returns a
transport error, the client gets status 502, exactly that one request was handed to a
backend, and the bytes written are the fixed message `Failed to forward request`,
whatever the error was. Neither path panics. -/
theorem forwardRequest_error_mapping (net : Net) (w : ResponseWriter) (r : Request)
    (backendURL : URL) (hw : w.committed = none) :
    (∀ e, NewRequest net r.Method (backendURL.String ++ r.RequestURI) r.Body = .error e →
        (forwardRequest net w r backendURL).w.status = some 500 ∧
        (forwardRequest net w r backendURL).sent = [] ∧
        (forwardRequest net w r backendURL).w.body =
          w.body ++ "Failed to create request\n" ∧
        (forwardRequest net w r backendURL).panicked = false) ∧
      (∀ req0, NewRequest net r.Method (backendURL.String ++ r.RequestURI) r.Body = .ok req0 →
        ∀ e, net.roundTrip { req0 with Header := r.Header } = .error e →
          (forwardRequest net w r backendURL).w.status = some 502 ∧
          (forwardRequest net w r backendURL).sent = [{ req0 with Header := r.Header }] ∧
          (forwardRequest net w r backendURL).w.body =
            w.body ++ "Failed to forward request\n" ∧
          (forwardRequest net w r backendURL).panicked = false) := by
  constructor
  · intro e h
    obtain ⟨w1, h1, hbody, hstatus, _⟩ :=
      httpError_final w "Failed to create request" StatusInternalServerError finalStatus_500
    rw [forwardRequest_rejected net w r backendURL e h, h1]
    exact ⟨hstatus hw, rfl, hbody, rfl⟩
  · intro req0 h e he
    obtain ⟨w1, h1, hbody, hstatus, _⟩ :=
      httpError_final w "Failed to forward request" StatusBadGateway finalStatus_502
    rw [forwardRequest_accepted net w r backendURL req0 h, he]
    simp only
    rw [h1]
    exact ⟨hstatus hw, rfl, hbody, rfl⟩

/-- Two concrete networks: one that rejects the request, one that refuses the connection. -/
theorem forwardRequest_error_mapping_witness :
    ((forwardRequest netRejecting freshWriter sampleRequest ⟨"http://localhost:8081"⟩).w.status
          = some 500 ∧
        (forwardRequest netRejecting freshWriter sampleRequest ⟨"http://localhost:8081"⟩).sent
          = [] ∧
        (forwardRequest netRejecting freshWriter sampleRequest ⟨"http://localhost:8081"⟩).w.body
          = freshWriter.body ++ "Failed to create request\n" ∧
        (forwardRequest netRejecting freshWriter sampleRequest
          ⟨"http://localhost:8081"⟩).panicked = false) ∧
      ((forwardRequest netRefusing freshWriter sampleRequest ⟨"http://localhost:8081"⟩).w.status
          = some 502 ∧
        (forwardRequest netRefusing freshWriter sampleRequest ⟨"http://localhost:8081"⟩).sent
          = [{ Method := "GET", URL := ⟨"http://localhost:8081/index?x=1"⟩, RequestURI := "",
               Header := sampleRequest.Header, Body := sampleRequest.Body }] ∧
        (forwardRequest netRefusing freshWriter sampleRequest ⟨"http://localhost:8081"⟩).w.body
          = freshWriter.body ++ "Failed to forward request\n" ∧
        (forwardRequest netRefusing freshWriter sampleRequest
          ⟨"http://localhost:8081"⟩).panicked = false) :=
  ⟨(forwardRequest_error_mapping netRejecting freshWriter sampleRequest
      ⟨"http://localhost:8081"⟩ rfl).1 "parse error" rfl,
   (forwardRequest_error_mapping netRefusing freshWriter sampleRequest
      ⟨"http://localhost:8081"⟩ rfl).2
      { Method := "GET", URL := ⟨"http://localhost:8081/index?x=1"⟩, RequestURI := "",
        Header := ∅, Body := sampleRequest.Body } rfl "connection refused" rfl⟩

/-- C6 (as stated, refuted): for the inbound request `GET /a"b` and the backend
`http://localhost:8081`, building the outbound request succeeds, and the request handed to
the backend has the target `http://localhost:8081/a%22b`, which is not the backend address
concatenated with the inbound path. -/
theorem forwardRequest_target_reencoded :
    (NewRequest netAnswering quoteRequest.Method
        (URL.String ⟨"http://localhost:8081"⟩ ++ quoteRequest.RequestURI)
        quoteRequest.Body).toBool = true ∧
      (forwardRequest netAnswering freshWriter quoteRequest ⟨"http://localhost:8081"⟩).sent.map
          (fun q => q.URL.String) = ["http://localhost:8081/a%22b"] ∧
      (forwardRequest netAnswering freshWriter quoteRequest ⟨"http://localhost:8081"⟩).sent.map
          (fun q => q.URL.String) ≠
        [URL.String ⟨"http://localhost:8081"⟩ ++ quoteRequest.RequestURI] := by
  decide

/-- C6 (amended): whenever building the outbound request succeeds, `forwardRequest` hands
exactly one request to the HTTP client, and that request has the inbound request's method
(`GET` when the inbound method is empty), as target the URL that `http.NewRequest` parses
from `backendURL.String() + r.RequestURI`, the inbound body stream and the inbound header
map. -/
theorem forwardRequest_outbound_request (net : Net) (w : ResponseWriter) (r : Request)
    (backendURL : URL) (req0 : Request)
    (h : NewRequest net r.Method (backendURL.String ++ r.RequestURI) r.Body = .ok req0) :
    ∃ req, (forwardRequest net w r backendURL).sent = [req] ∧
      req.Method = (if r.Method = "" then "GET" else r.Method) ∧
      net.requestURL (backendURL.String ++ r.RequestURI) = .ok req.URL ∧
      req.Body = r.Body ∧
      req.Header = r.Header := by
  obtain ⟨hm, hu, hb, _⟩ := NewRequest_ok_fields h
  exact ⟨{ req0 with Header := r.Header },
    sent_forwardRequest_accepted net w r backendURL req0 h, hm, hu, hb, rfl⟩

/-- A concrete inbound request whose path the parser re-encodes. -/
theorem forwardRequest_outbound_request_witness :
    ∃ req, (forwardRequest netAnswering freshWriter quoteRequest
        ⟨"http://localhost:8082"⟩).sent = [req] ∧
      req.Method = (if quoteRequest.Method = "" then "GET" else quoteRequest.Method) ∧
      netAnswering.requestURL (URL.String ⟨"http://localhost:8082"⟩ ++ quoteRequest.RequestURI)
        = .ok req.URL ∧
      req.Body = quoteRequest.Body ∧
      req.Header = quoteRequest.Header :=
  forwardRequest_outbound_request netAnswering freshWriter quoteRequest
    ⟨"http://localhost:8082"⟩
    { Method := "GET", URL := ⟨"http://localhost:8082/a%22b"⟩, RequestURI := "",
      Header := ∅, Body := quoteRequest.Body } rfl

/-- C7 (as stated, refuted): the backend call succeeds with `brokenResponse`, whose body
stream breaks after `Hello`; the body written to the client is then `Hello` followed by the
text of the error path, not the backend's body. -/
theorem forwardRequest_body_differs_on_copy_failure :
    netBreaking.roundTrip
        { Method := "GET", URL := ⟨"http://localhost:8081/index?x=1"⟩, RequestURI := "",
          Header := sampleRequest.Header, Body := sampleRequest.Body } = .ok brokenResponse ∧
      (forwardRequest netBreaking freshWriter sampleRequest ⟨"http://localhost:8081"⟩).sent =
        [{ Method := "GET", URL := ⟨"http://localhost:8081/index?x=1"⟩, RequestURI := "",
           Header := sampleRequest.Header, Body := sampleRequest.Body }] ∧
      (forwardRequest netBreaking freshWriter sampleRequest ⟨"http://localhost:8081"⟩).w.body =
        "HelloFailed to copy response body\n" ∧
      (forwardRequest netBreaking freshWriter sampleRequest ⟨"http://localhost:8081"⟩).w.body ≠
        brokenResponse.Body.data := by
  exact ⟨rfl, rfl, by decide, by decide⟩

/-- C7 (amended): when the backend call succeeds with a status code that the response
writer sends as a final status (`101`, or `200` to `999`), on a response writer to which
nothing was sent yet, the call does not panic, the client receives the backend's status
code and a header set in which every key of the backend response carries exactly the
backend's value list (replacing what was set for that key) and every other key is as it
was; and if copying the backend's body completes without error (the stream is read to its
end and no write to the client fails), the body written equals the backend's body. -/
theorem forwardRequest_relays_response (net : Net) (w : ResponseWriter) (r : Request)
    (backendURL : URL) (req0 : Request) (resp : Response) (hw : w.committed = none)
    (h : NewRequest net r.Method (backendURL.String ++ r.RequestURI) r.Body = .ok req0)
    (hresp : net.roundTrip { req0 with Header := r.Header } = .ok resp)
    (hcode : finalStatus resp.StatusCode) :
    (forwardRequest net w r backendURL).panicked = false ∧
      (forwardRequest net w r backendURL).w.status = some resp.StatusCode ∧
      (∃ hdr, (forwardRequest net w r backendURL).w.sentHeader = some hdr ∧
        (∀ k v, resp.Header.lookup k = some v → hdr.lookup k = some v) ∧
        (∀ k, resp.Header.lookup k = none → hdr.lookup k = w.header.lookup k)) ∧
      (resp.Body.fails = false → net.writeError resp = none →
        (forwardRequest net w r backendURL).w.body = w.body ++ resp.Body.data) := by
  have hlook : ∀ k, (rangeAssign resp.Header.entries w.header).lookup k =
      match resp.Header.lookup k with
      | some v => some v
      | none => w.header.lookup k :=
    fun k => lookup_rangeAssign k resp.Header.entries w.header resp.Header.nodupKeys
  have hhdr : (∀ k v, resp.Header.lookup k = some v →
        (rangeAssign resp.Header.entries w.header).lookup k = some v) ∧
      (∀ k, resp.Header.lookup k = none →
        (rangeAssign resp.Header.entries w.header).lookup k = w.header.lookup k) := by
    constructor
    · intro k v hk; rw [hlook k, hk]
    · intro k hk; rw [hlook k, hk]
  obtain ⟨w2, hw2⟩ : ∃ w2 : ResponseWriter, w2 =
      { w with header := rangeAssign resp.Header.entries w.header,
               committed := some (resp.StatusCode, rangeAssign resp.Header.entries w.header) } :=
    ⟨_, rfl⟩
  have hW : ({ w with header := rangeAssign resp.Header.entries w.header } :
      ResponseWriter).WriteHeader resp.StatusCode = some w2 := by
    rw [hw2]
    exact WriteHeader_final _ resp.StatusCode hw hcode
  have hw2c : w2.committed =
      some (resp.StatusCode, rangeAssign resp.Header.entries w.header) := by rw [hw2]
  have hw2b : w2.body = w.body := by rw [hw2]
  obtain ⟨hc1, _⟩ := ioCopy_committed (net.writeError resp) w2 resp.Body _ hw2c
  obtain ⟨w4, h4, _, _, hkeep4⟩ := httpError_final
    (ioCopy (net.writeError resp) w2 resp.Body).1
    "Failed to copy response body" StatusInternalServerError finalStatus_500
  rw [forwardRequest_written net w r backendURL req0 resp w2 h hresp hW]
  cases herr : (ioCopy (net.writeError resp) w2 resp.Body).2 with
  | false =>
    simp only [Bool.false_eq_true, if_false, ResponseWriter.status, ResponseWriter.sentHeader,
      hc1, Option.map_some']
    refine ⟨trivial, trivial, ⟨_, rfl, hhdr⟩, fun _ hwe => ?_⟩
    rw [hwe, (ioCopy_accepted w2 resp.Body).1, hw2b]
  | true =>
    simp only [if_true, h4, ResponseWriter.status, ResponseWriter.sentHeader,
      hkeep4 _ hc1, Option.map_some']
    refine ⟨trivial, trivial, ⟨_, rfl, hhdr⟩, fun hf hwe => ?_⟩
    rw [hwe, (ioCopy_accepted w2 resp.Body).2, hf] at herr
    cases herr

/-- A concrete backend answer that replaces a header already set. -/
theorem forwardRequest_relays_response_witness :
    (forwardRequest netAnswering writerWithType sampleRequest
        ⟨"http://localhost:8081"⟩).panicked = false ∧
      (forwardRequest netAnswering writerWithType sampleRequest
        ⟨"http://localhost:8081"⟩).w.status = some 404 ∧
      (∃ hdr, (forwardRequest netAnswering writerWithType sampleRequest
          ⟨"http://localhost:8081"⟩).w.sentHeader = some hdr ∧
        (∀ k v, sampleResponse.Header.lookup k = some v → hdr.lookup k = some v) ∧
        (∀ k, sampleResponse.Header.lookup k = none →
          hdr.lookup k = writerWithType.header.lookup k)) ∧
      (forwardRequest netAnswering writerWithType sampleRequest
          ⟨"http://localhost:8081"⟩).w.body =
        writerWithType.body ++ sampleResponse.Body.data :=
  have hmain := forwardRequest_relays_response netAnswering writerWithType sampleRequest
    ⟨"http://localhost:8081"⟩
    { Method := "GET", URL := ⟨"http://localhost:8081/index?x=1"⟩, RequestURI := "",
      Header := ∅, Body := sampleRequest.Body } sampleResponse rfl rfl rfl (by decide)
  ⟨hmain.1, hmain.2.1, hmain.2.2.1, hmain.2.2.2 rfl rfl⟩

/-- For every backend status code outside `100..999`, on a response writer to which
nothing was sent yet, `forwardRequest` panics after the request was sent and sends no
status and no body bytes. -/
theorem forwardRequest_panics_on_invalid_status (net : Net) (w : ResponseWriter)
    (r : Request) (backendURL : URL) (req0 : Request) (resp : Response)
    (hw : w.committed = none)
    (h : NewRequest net r.Method (backendURL.String ++ r.RequestURI) r.Body = .ok req0)
    (hresp : net.roundTrip { req0 with Header := r.Header } = .ok resp)
    (hcode : resp.StatusCode < 100 ∨ resp.StatusCode > 999) :
    (forwardRequest net w r backendURL).panicked = true ∧
      (forwardRequest net w r backendURL).w.status = none ∧
      (forwardRequest net w r backendURL).w.body = w.body := by
  rw [forwardRequest_accepted net w r backendURL req0 h, hresp]
  simp only
  have hnone : ({ w with header := rangeAssign resp.Header.entries w.header } :
      ResponseWriter).WriteHeader resp.StatusCode = none := by
    unfold ResponseWriter.WriteHeader
    rw [hw]
    simp only
    rw [if_pos hcode]
  rw [hnone]
  exact ⟨rfl, by simp [ResponseWriter.status, hw], rfl⟩

/-- The status line `099`: the call panics and nothing is sent. -/
theorem forwardRequest_panics_on_invalid_status_witness :
    (forwardRequest netOdd freshWriter sampleRequest ⟨"http://localhost:8081"⟩).panicked = true ∧
      (forwardRequest netOdd freshWriter sampleRequest ⟨"http://localhost:8081"⟩).w.status
        = none ∧
      (forwardRequest netOdd freshWriter sampleRequest ⟨"http://localhost:8081"⟩).w.body
        = freshWriter.body :=
  forwardRequest_panics_on_invalid_status netOdd freshWriter sampleRequest
    ⟨"http://localhost:8081"⟩
    { Method := "GET", URL := ⟨"http://localhost:8081/index?x=1"⟩, RequestURI := "",
      Header := ∅, Body := sampleRequest.Body } oddResponse rfl rfl rfl (by decide)

end LB
